import Mathlib

/-!
Verification of the conversation state transformation of wingman-ai
(`src/composer/transformer.ts`).

The raw LangChain message classes are re-expressed here as an explicit
tagged union (`BaseMessage`), as the polymorphic payloads
(`Record<string, unknown>`) are modelled as finite string-keyed maps
(`StrMap`): the transformer never inspects those payloads, it only
passes them through, so any value domain is adequate for its behaviour.
-/

namespace Wingman

/-- Opaque string-keyed payload: models the `Record<string, unknown>`
objects (tool-call arguments, tool results, free-form kwargs entries)
that the transformer passes through without inspecting. -/
abbrev StrMap := List (String × String)

/-- Models `message.additional_kwargs`.  The `temp` field is the
truthiness of `additional_kwargs.temp`, which the transformer reads to
exclude transient messages; all other entries are opaque. -/
structure AdditionalKwargs where
  temp : Bool := false
  extra : StrMap := []
deriving DecidableEq

/-- One element of a LangChain complex-content array
(`MessageContentComplex`): a JavaScript object with a `type` tag and,
depending on the tag, a `text` field or a nested `image_url.url`
field.  Reading an absent field yields `undefined`, modelled as
`none` (`text` is `none` on a non-text segment, `image_url` is the
url reachable as `image_url.url`, `none` when absent). -/
structure MessageContentComplex where
  type : String
  text : Option String := none
  image_url : Option String := none
deriving DecidableEq

/-- The `content` of an `AIMessageChunk`: either a plain string or an
array of typed segments (the source branches on `Array.isArray`). -/
inductive AIContent where
  | str (s : String)
  | arr (parts : List MessageContentComplex)
deriving DecidableEq

/-- One entry of `message.tool_calls` on an `AIMessageChunk`. -/
structure ToolCall where
  name : String
  id : String
  args : StrMap
deriving DecidableEq

/-- The raw agent-framework message, as an explicit tagged union over
the classes the source dispatches on via `instanceof`:
`HumanMessage`, `AIMessageChunk`, `ToolMessage` (aliased
`LangChainToolMessage`), and any other message kind.  The source
casts a human message's content to a segment array
(`message.content as MessageContentComplex[]`), so human content is
modelled as that array. -/
inductive BaseMessage where
  | human (id : String) (additional_kwargs : AdditionalKwargs)
      (content : List MessageContentComplex)
  | aiChunk (id : String) (content : AIContent) (tool_calls : List ToolCall)
      (additional_kwargs : AdditionalKwargs)
  | toolResult (id : String) (name : String) (tool_call_id : String)
      (content : StrMap) (additional_kwargs : AdditionalKwargs)
  | other (id : String)
deriving DecidableEq

/-- The image attachment of a `UserMessage`: the source builds it as
`{ data: imageMsg.image_url.url, ext: "image/jpeg" }`.  `data` is
`Option String` because `imageMsg.image_url.url` is `undefined` when
the found segment carries no nested url (the `@ts-expect-error` site
in the source). -/
structure ImageAttachment where
  data : Option String
  ext : String
deriving DecidableEq

/-- The canonical protocol message (`@shared/types/Composer`): the
three variants `UserMessage`, `AssistantMessage`, `ToolMessage`.
Text fields are `Option String` because the source can pass
`undefined` where the static type says `string` (for instance
`lastContent.text` when the last segment is not a text segment). -/
inductive ComposerMessage where
  | user (id : String) (text : Option String) (image : Option ImageAttachment)
  | assistant (id : String) (text : Option String)
  | tool (id : String) (toolName : String) (toolCallId : String)
      (args : StrMap) (phase : String) (metadata : AdditionalKwargs)
deriving DecidableEq

/-- The agent graph state read by the assembler (source name
`GraphStateAnnotation`; shortened here).  Only the fields the
transformer reads are modelled: `messages`, `title`, `createdAt`,
`parentThreadId`. -/
structure GraphState where
  messages : List BaseMessage
  title : String := ""
  createdAt : Nat := 0
  parentThreadId : Option String := none
deriving DecidableEq

/-- The assembled conversation snapshot (`ComposerState`).
`threadId` is `Option String`: the TypeScript annotation says
`string`, but nothing at runtime prevents a missing value from being
passed through, and the source performs no validation, so the model
keeps the possibly-missing value explicit. -/
structure ComposerState where
  messages : List ComposerMessage
  threadId : Option String
  canResume : Option Bool
  title : String
  createdAt : Nat
  parentThreadId : Option String
deriving DecidableEq

/-- The per-message classifier: the body of the lambda passed to
`flatMap` in `mapMessages`.  Each branch is a direct translation of
the corresponding `instanceof` branch of the source:

* `HumanMessage` with falsy `additional_kwargs.temp`: find the first
  `image_url` segment, take `messageContent[messageContent.length-1]`
  (the last segment of any type; on an empty array this is
  `undefined` and reading `.text` gives `none` in the model), emit
  one `UserMessage`.  A truthy `temp` makes the message fall through
  every branch to the final `return []`.
* `AIMessageChunk`: one `AssistantMessage` for a plain-string
  content, else one per `type === "text"` segment in order (the push
  loop is rendered as `filterMap`); then one `ToolMessage` with phase
  `"start"` per entry of `tool_calls` (the
  `if (message.tool_calls?.length)` guard plus loop is rendered as
  `map`, which is also empty output on an empty list).
* `LangChainToolMessage`: exactly one `ToolMessage` with phase
  `"end"`.
* anything else: `[]`. -/
def mapMessage : BaseMessage → List ComposerMessage
  | .human id kwargs content =>
    if kwargs.temp then []
    else
      let imageMsg := content.find? (fun c => c.type == "image_url")
      let lastText := (content.getLast?).bind (fun c => c.text)
      [.user id lastText
        (imageMsg.map (fun seg => ⟨seg.image_url, "image/jpeg"⟩))]
  | .aiChunk id content tool_calls kwargs =>
    let textResults : List ComposerMessage :=
      match content with
      | .str s => [.assistant id (some s)]
      | .arr parts =>
        parts.filterMap (fun c =>
          if c.type == "text" then some (.assistant id c.text) else none)
    let toolResults : List ComposerMessage :=
      tool_calls.map (fun tc => .tool id tc.name tc.id tc.args "start" kwargs)
    textResults ++ toolResults
  | .toolResult id name tool_call_id content kwargs =>
    [.tool id name tool_call_id content "end" kwargs]
  | .other _ => []

/-- `mapMessages`: `messages.flatMap(...)` over the classifier. -/
def mapMessages (messages : List BaseMessage) : List ComposerMessage :=
  messages.flatMap mapMessage

/-- `transformState`: folds the mapped messages together with the
session metadata into a `ComposerState`.  The source performs no
validation of `threadId` and has no failure path; it is a plain
record construction.  The `workspace` parameter is accepted and
unused, exactly as in the source. -/
def transformState (state : GraphState) (threadId : Option String)
    (workspace : String) (canResume : Option Bool) : ComposerState :=
  { messages := mapMessages state.messages
    threadId := threadId
    canResume := canResume
    title := state.title
    createdAt := state.createdAt
    parentThreadId := state.parentThreadId }

/-- Spec-side definition (from the specification's words, for
comparison with the source): the last segment of type `"text"` in a
content list. -/
def specLastTextSegment (content : List MessageContentComplex) :
    Option MessageContentComplex :=
  (content.filter (fun c => c.type == "text")).getLast?

/-- Spec-side definition (from the specification's words): the MIME
type declared by a data URL of the form `data:<mime>;base64,<payload>`
(the characters between the `data:` scheme and the first `;`). -/
def specDataUrlMime (url : String) : Option String :=
  let cs := url.toList
  if cs.take 5 = "data:".toList then
    some (String.mk ((cs.drop 5).takeWhile (fun ch => ch != ';')))
  else none

/-- A canonical message is a ToolMessage with the given call id and
phase. -/
def isToolPhase (m : ComposerMessage) (callId phase : String) : Prop :=
  ∃ id n a md, m = .tool id n callId a phase md

/-- The push loop over text segments, rendered as `filterMap` in
`mapMessage`, equals a `map` over the `filter` that keeps exactly the
segments of type `"text"`. -/
theorem aiText_filterMap (id : String) (parts : List MessageContentComplex) :
    (parts.filterMap (fun c =>
        if c.type == "text" then some (ComposerMessage.assistant id c.text)
        else none)) =
      (parts.filter (fun c => c.type == "text")).map
        (fun c => ComposerMessage.assistant id c.text) := by
  induction parts with
  | nil => rfl
  | cons a l ih =>
    by_cases h : a.type == "text"
    · rw [List.filterMap_cons_some (b := ComposerMessage.assistant id a.text)
        (by rw [if_pos h])]
      simp [List.filter_cons, h]
      simpa using ih
    · rw [List.filterMap_cons_none (by rw [if_neg h])]
      simp [List.filter_cons, h]
      simpa using ih

/-- C1 counterexample: a non-transient user message whose content is a
text segment `"hi"` followed by an image segment.  The last segment of
type `"text"` holds `"hi"`, yet the emitted UserMessage's text is
`none` (JavaScript `undefined`): the source reads
`messageContent[messageContent.length - 1].text`, the text field of
the last segment of *any* type, which here is the image segment. -/
theorem c1_counterexample :
    specLastTextSegment
        [⟨"text", some "hi", none⟩,
          ⟨"image_url", none, some "data:image/png;base64,AAAA"⟩] =
      some ⟨"text", some "hi", none⟩ ∧
    mapMessage (.human "m1" {}
        [⟨"text", some "hi", none⟩,
          ⟨"image_url", none, some "data:image/png;base64,AAAA"⟩]) =
      [.user "m1" none
        (some ⟨some "data:image/png;base64,AAAA", "image/jpeg"⟩)] ∧
    (none : Option String) ≠ some "hi" :=
  ⟨by decide, by decide, by decide⟩

/-- C1 (amended): a non-transient user message yields exactly one
UserMessage whose text is the text field of the *last segment* of the
content list; whenever that last segment is itself a text segment it
is the last text segment, and its text is what gets emitted — but a
non-text segment placed after the last text segment yields an
undefined text field instead. -/
theorem c1_last_segment_text (id : String) (kwargs : AdditionalKwargs)
    (content : List MessageContentComplex)
    (h0 : kwargs.temp = false) :
    (∃ img, mapMessage (.human id kwargs content) =
      [.user id ((content.getLast?).bind (fun c => c.text)) img]) ∧
    (∀ c, content.getLast? = some c → c.type = "text" →
      specLastTextSegment content = some c ∧
      mapMessage (.human id kwargs content) =
        [.user id c.text
          ((content.find? (fun s => s.type == "image_url")).map
            (fun seg => ⟨seg.image_url, "image/jpeg"⟩))]) := by
  constructor
  · refine ⟨(content.find? (fun s => s.type == "image_url")).map
      (fun seg => ⟨seg.image_url, "image/jpeg"⟩), ?_⟩
    simp [mapMessage, h0]
  · intro c hc htype
    constructor
    · obtain ⟨ys, rfl⟩ := List.getLast?_eq_some_iff.mp hc
      have hp : (c.type == "text") = true := by simp [htype]
      unfold specLastTextSegment
      rw [List.filter_append, List.filter_cons, if_pos hp]
      exact List.getLast?_concat _
    · simp [mapMessage, h0, hc]

/-- C1 witness: the amended claim at a single-text-segment content. -/
theorem c1_last_segment_text_witness :
    specLastTextSegment [⟨"text", some "hi", none⟩] =
      some ⟨"text", some "hi", none⟩ ∧
    mapMessage (.human "m1" {} [⟨"text", some "hi", none⟩]) =
      [.user "m1" (some "hi") none] := by
  have h := (c1_last_segment_text "m1" {} [⟨"text", some "hi", none⟩] rfl).2
    ⟨"text", some "hi", none⟩ rfl rfl
  refine ⟨h.1, ?_⟩
  rw [h.2]
  decide

/-- C2 counterexample: for a PNG data URL, the Adapter neither decodes
the payload nor honours the declared MIME type: the attached data is
the whole undecoded URL string, and the attached extension is the
constant `"image/jpeg"`, while the URL declares `"image/png"`. -/
theorem c2_counterexample :
    mapMessage (.human "m1" {}
        [⟨"image_url", none, some "data:image/png;base64,AAAA"⟩,
          ⟨"text", some "look", none⟩]) =
      [.user "m1" (some "look")
        (some ⟨some "data:image/png;base64,AAAA", "image/jpeg"⟩)] ∧
    specDataUrlMime "data:image/png;base64,AAAA" = some "image/png" ∧
    ("image/jpeg" : String) ≠ "image/png" :=
  ⟨by decide, by decide, by decide⟩

/-- C2 (amended): the Adapter performs no decoding.  It attaches the
first image segment's data URL string verbatim as the attachment's
data — so the original URL (and hence the bytes and MIME type it
encodes) is recoverable unchanged from the attachment — paired with
the constant extension `"image/jpeg"`, which does not track the MIME
type the URL declares. -/
theorem c2_no_decoding (id : String) (kwargs : AdditionalKwargs)
    (content : List MessageContentComplex) (seg : MessageContentComplex)
    (u : String)
    (h0 : kwargs.temp = false)
    (h1 : content.find? (fun c => c.type == "image_url") = some seg)
    (h2 : seg.image_url = some u) :
    ∃ t, mapMessage (.human id kwargs content) =
      [.user id t (some ⟨some u, "image/jpeg"⟩)] := by
  refine ⟨(content.getLast?).bind (fun c => c.text), ?_⟩
  simp [mapMessage, h0, h1, h2]

/-- C2 witness: the amended claim at a concrete GIF data URL. -/
theorem c2_no_decoding_witness :
    ∃ t, mapMessage (.human "m9" {}
        [⟨"image_url", none, some "data:image/gif;base64,R0lG"⟩]) =
      [.user "m9" t (some ⟨some "data:image/gif;base64,R0lG", "image/jpeg"⟩)] :=
  c2_no_decoding "m9" {} [⟨"image_url", none, some "data:image/gif;base64,R0lG"⟩]
    ⟨"image_url", none, some "data:image/gif;base64,R0lG"⟩
    "data:image/gif;base64,R0lG" rfl (by decide) rfl

/-- C3 counterexample: called without a threadId, the assembler does
not fail — it returns a snapshot (here for an empty history), whose
threadId field is simply the missing value.  No `MissingSessionContext`
error kind exists anywhere in the code: `transformState` is a total
record construction with no failure path. -/
theorem c3_counterexample :
    transformState { messages := [] } none "workspace" none =
      { messages := [], threadId := none, canResume := none, title := "",
        createdAt := 0, parentThreadId := none } := rfl

/-- C3 (amended): the assembler performs no validation of session
metadata: invoked with a missing threadId it still returns a snapshot,
carrying the missing value through unchanged. -/
theorem c3_no_session_validation (state : GraphState) (workspace : String)
    (canResume : Option Bool) :
    transformState state none workspace canResume =
      { messages := mapMessages state.messages, threadId := none,
        canResume := canResume, title := state.title,
        createdAt := state.createdAt,
        parentThreadId := state.parentThreadId } := rfl

/-- C4: an assistant-origin message with plain-string content yields
exactly one AssistantMessage with that text; with segment-list content
it yields one AssistantMessage per `"text"` segment in order, skipping
non-text segments; and in both cases one ToolMessage with phase
`"start"` per pending tool invocation follows after all
AssistantMessages, carrying the invocation's declared arguments and
the message's free-form metadata. -/
theorem c4_assistant_classification (id s : String)
    (parts : List MessageContentComplex) (tool_calls : List ToolCall)
    (kwargs : AdditionalKwargs) :
    mapMessage (.aiChunk id (.str s) tool_calls kwargs) =
      .assistant id (some s) ::
        tool_calls.map (fun tc =>
          .tool id tc.name tc.id tc.args "start" kwargs) ∧
    mapMessage (.aiChunk id (.arr parts) tool_calls kwargs) =
      (parts.filter (fun c => c.type == "text")).map
          (fun c => ComposerMessage.assistant id c.text) ++
        tool_calls.map (fun tc =>
          .tool id tc.name tc.id tc.args "start" kwargs) := by
  refine ⟨rfl, ?_⟩
  show (parts.filterMap fun c =>
      if c.type == "text" then some (ComposerMessage.assistant id c.text)
      else none) ++ _ = _
  rw [aiText_filterMap]

/-- C5: a tool-result message yields exactly one ToolMessage with
phase `"end"`, with toolName and toolCallId copied from the result
message's linkage fields and the result payload in the argument slot. -/
theorem c5_tool_result_end (id name tool_call_id : String)
    (content : StrMap) (kwargs : AdditionalKwargs) :
    mapMessage (.toolResult id name tool_call_id content kwargs) =
      [.tool id name tool_call_id content "end" kwargs] := rfl

/-- The mapped output of an appended history is the append of the
mapped outputs. -/
theorem mapMessages_append (xs ys : List BaseMessage) :
    mapMessages (xs ++ ys) = mapMessages xs ++ mapMessages ys := by
  simp [mapMessages]

/-- The mapped output of a history starts with the first message's
contribution. -/
theorem mapMessages_cons (m : BaseMessage) (ms : List BaseMessage) :
    mapMessages (m :: ms) = mapMessage m ++ mapMessages ms := by
  simp [mapMessages]

/-- C6: the assembled message sequence is the in-order concatenation
of the Adapter's per-message outputs (never re-sorted); consequently,
for a tool-call pair sharing a toolCallId whose start-carrying raw
message precedes its result raw message in the history, the start
ToolMessage occupies a strictly earlier position than the end
ToolMessage in the assembled sequence. -/
theorem c6_emission_order :
    (∀ ms : List BaseMessage, mapMessages ms = (ms.map mapMessage).flatten) ∧
    (∀ (xs ys zs : List BaseMessage) (m1 m2 : BaseMessage) (cid : String)
        (s e : ComposerMessage),
      isToolPhase s cid "start" → isToolPhase e cid "end" →
      s ∈ mapMessage m1 → e ∈ mapMessage m2 →
      ∃ a b : Nat, a < b ∧
        (mapMessages (xs ++ m1 :: (ys ++ m2 :: zs)))[a]? = some s ∧
        (mapMessages (xs ++ m1 :: (ys ++ m2 :: zs)))[b]? = some e) := by
  constructor
  · intro ms
    exact List.flatMap_def ms mapMessage
  · intro xs ys zs m1 m2 cid s e _ _ hs he
    obtain ⟨i1, hi1⟩ := List.mem_iff_getElem?.mp hs
    obtain ⟨i2, hi2⟩ := List.mem_iff_getElem?.mp he
    obtain ⟨hi1lt, -⟩ := List.getElem?_eq_some_iff.mp hi1
    obtain ⟨hi2lt, -⟩ := List.getElem?_eq_some_iff.mp hi2
    have hL : mapMessages (xs ++ m1 :: (ys ++ m2 :: zs)) =
        mapMessages xs ++ (mapMessage m1 ++ (mapMessages ys ++
          (mapMessage m2 ++ mapMessages zs))) := by
      rw [mapMessages_append, mapMessages_cons, mapMessages_append,
        mapMessages_cons]
    refine ⟨(mapMessages xs).length + i1,
      (mapMessages xs).length + (mapMessage m1).length +
        (mapMessages ys).length + i2, by omega, ?_, ?_⟩
    · rw [hL, List.getElem?_append_right (by omega),
        show (mapMessages xs).length + i1 - (mapMessages xs).length = i1
          by omega,
        List.getElem?_append_left hi1lt, hi1]
    · rw [hL, List.getElem?_append_right (by omega : (mapMessages xs).length ≤
          (mapMessages xs).length + (mapMessage m1).length +
            (mapMessages ys).length + i2),
        show (mapMessages xs).length + (mapMessage m1).length +
            (mapMessages ys).length + i2 - (mapMessages xs).length =
          (mapMessage m1).length + ((mapMessages ys).length + i2) by omega,
        List.getElem?_append_right (by omega : (mapMessage m1).length ≤
          (mapMessage m1).length + ((mapMessages ys).length + i2)),
        show (mapMessage m1).length + ((mapMessages ys).length + i2) -
            (mapMessage m1).length = (mapMessages ys).length + i2 by omega,
        List.getElem?_append_right (by omega : (mapMessages ys).length ≤
          (mapMessages ys).length + i2),
        show (mapMessages ys).length + i2 - (mapMessages ys).length = i2
          by omega,
        List.getElem?_append_left hi2lt, hi2]

/-- C6 witness: a two-message history — an assistant chunk carrying a
pending "search" invocation, then its result — places the start
ToolMessage strictly before the end ToolMessage. -/
theorem c6_emission_order_witness :
    ∃ a b : Nat, a < b ∧
      (mapMessages
        [.aiChunk "a1" (.str "hi") [⟨"search", "tc1", [("query", "foo")]⟩] {},
          .toolResult "t1" "search" "tc1" [("hits", "3")] {}])[a]? =
        some (.tool "a1" "search" "tc1" [("query", "foo")] "start" {}) ∧
      (mapMessages
        [.aiChunk "a1" (.str "hi") [⟨"search", "tc1", [("query", "foo")]⟩] {},
          .toolResult "t1" "search" "tc1" [("hits", "3")] {}])[b]? =
        some (.tool "t1" "search" "tc1" [("hits", "3")] "end" {}) :=
  c6_emission_order.2 [] [] []
    (.aiChunk "a1" (.str "hi") [⟨"search", "tc1", [("query", "foo")]⟩] {})
    (.toolResult "t1" "search" "tc1" [("hits", "3")] {}) "tc1"
    (.tool "a1" "search" "tc1" [("query", "foo")] "start" {})
    (.tool "t1" "search" "tc1" [("hits", "3")] "end" {})
    ⟨"a1", "search", [("query", "foo")], {}, rfl⟩
    ⟨"t1", "search", [("hits", "3")], {}, rfl⟩
    (by decide) (by decide)

/-- C7: the assembler is deterministic — equal inputs yield identical
snapshots, and the message sequence of the snapshot depends on the
raw history alone.  (Freedom from mutation holds by construction: the
source builds every output value afresh with `flatMap`, `find`,
indexing and object literals, none of which writes to its input.) -/
theorem c7_assembler_deterministic (state state' : GraphState)
    (t t' : Option String) (w w' : String) (c c' : Option Bool)
    (h : state = state') (ht : t = t') (hw : w = w') (hc : c = c') :
    transformState state t w c = transformState state' t' w' c' ∧
    (transformState state t w c).messages = mapMessages state.messages := by
  subst h; subst ht; subst hw; subst hc; exact ⟨rfl, rfl⟩

/-- C7 witness: determinism applied at a concrete input. -/
theorem c7_assembler_deterministic_witness :
    transformState { messages := [.other "x"] } (some "t1") "ws" (some true) =
      transformState { messages := [.other "x"] } (some "t1") "ws" (some true) ∧
    (transformState { messages := [.other "x"] } (some "t1") "ws"
        (some true)).messages = mapMessages [.other "x"] :=
  c7_assembler_deterministic { messages := [.other "x"] }
    { messages := [.other "x"] } (some "t1") (some "t1") "ws" "ws"
    (some true) (some true) rfl rfl rfl rfl

/-- C8: a user-origin message flagged transient (truthy
`additional_kwargs.temp`) contributes zero canonical messages. -/
theorem c8_transient_dropped (id : String) (kwargs : AdditionalKwargs)
    (content : List MessageContentComplex) (h : kwargs.temp = true) :
    mapMessage (.human id kwargs content) = [] := by
  simp [mapMessage, h]

/-- C8 witness: a concrete transient user message is dropped. -/
theorem c8_transient_dropped_witness :
    ({ temp := true } : AdditionalKwargs).temp = true ∧
    mapMessage (.human "m1" { temp := true }
      [⟨"text", some "hello", none⟩]) = [] :=
  ⟨rfl, c8_transient_dropped "m1" { temp := true }
    [⟨"text", some "hello", none⟩] rfl⟩

/-- C9: a raw message that is neither user-origin, assistant-origin
nor tool-result produces an empty contribution, and — `mapMessage`
being a total function — no error is raised. -/
theorem c9_unknown_kind_dropped (id : String) :
    mapMessage (.other id) = [] := rfl

/-- C10: the emitted UserMessage's image field carries the first image
segment's *undecoded* url string as its data, paired with the constant
extension `"image/jpeg"` — whatever MIME type the data URL declares. -/
theorem c10_raw_url_constant_ext (id : String) (kwargs : AdditionalKwargs)
    (content : List MessageContentComplex) (seg : MessageContentComplex)
    (h0 : kwargs.temp = false)
    (h1 : content.find? (fun c => c.type == "image_url") = some seg) :
    mapMessage (.human id kwargs content) =
      [.user id ((content.getLast?).bind (fun c => c.text))
        (some ⟨seg.image_url, "image/jpeg"⟩)] := by
  simp [mapMessage, h0, h1]

/-- C10 witness: a PNG data URL is attached verbatim with extension
`"image/jpeg"`. -/
theorem c10_raw_url_constant_ext_witness :
    ({} : AdditionalKwargs).temp = false ∧
    (([⟨"image_url", none, some "data:image/png;base64,AAAA"⟩,
        ⟨"text", some "look", none⟩] : List MessageContentComplex).find?
      (fun c => c.type == "image_url") =
        some ⟨"image_url", none, some "data:image/png;base64,AAAA"⟩) ∧
    mapMessage (.human "m1" {}
        [⟨"image_url", none, some "data:image/png;base64,AAAA"⟩,
          ⟨"text", some "look", none⟩]) =
      [.user "m1" (some "look")
        (some ⟨some "data:image/png;base64,AAAA", "image/jpeg"⟩)] := by
  refine ⟨rfl, by decide, ?_⟩
  exact c10_raw_url_constant_ext "m1" {}
    [⟨"image_url", none, some "data:image/png;base64,AAAA"⟩,
      ⟨"text", some "look", none⟩]
    ⟨"image_url", none, some "data:image/png;base64,AAAA"⟩ rfl (by decide)

end Wingman
